import Mathlib

/-!
Verification development for the session-indexing / session-recovery core of
the ENHANCED-CLAUDE hooks (src/hooks/live-session-indexer.py and
src/hooks/session-recovery.py).

The Python code operates on JSON values loaded with `json.loads` and on
newline-delimited log files.  The embedding models:

* JSON values as the inductive type `Json` (objects as association lists;
  `json.loads` keeps the last of duplicate keys, the model assumes
  duplicate-free objects and returns the first binding);
* Python `dict.get` (which raises `AttributeError` on non-dicts) as `pyGet`
  in the `Except String` monad; Python truthiness as `pyTruthy`;
* a raw log line as `Line`: `blank` (whitespace-only), `malformed s`
  (a line that `json.loads` rejects, carrying its raw text), or
  `record j` (a line that decodes to the JSON value `j`);
* `datetime` values as `PyDateTime`: seconds on the proleptic Gregorian
  calendar plus an optional UTC-offset (an aware/naive subtraction raises
  `TypeError`, as in Python);
* floating-point scores as exact fractions (`PyFloat`).  The only float
  operations the code performs are additions, one division and comparisons
  of small quantities where double rounding cannot change any result
  asserted here, and the `gap > 5` minutes test on whole-second
  timestamps, which is exact.
-/

/-- JSON values (`json.loads` output).  Numbers are modelled as integers:
every number the indexer or the recovery selector inspects is compared for
(in)equality with strings or used as a count, so fractional values behave
like any other non-matching value. -/
inductive Json where
  | null
  | bool (b : Bool)
  | num (n : Int)
  | str (s : String)
  | arr (elems : List Json)
  | obj (fields : List (String × Json))

/-- First binding of a key in the field list of an object, with a default
(`dict.get(k, d)` on a value already known to be a dict). -/
def objGetD (fs : List (String × Json)) (k : String) (d : Json) : Json :=
  match fs.lookup k with
  | some v => v
  | none => d

/-- Python `x.get(k, d)`: returns the binding (or the default) when `x`
is a dict and raises `AttributeError` otherwise. -/
def pyGet (j : Json) (k : String) (d : Json) : Except String Json :=
  match j with
  | .obj fs => .ok (objGetD fs k d)
  | _ => .error "AttributeError: get"

/-- Python truthiness of a JSON-decoded value. -/
def pyTruthy : Json → Bool
  | .null => false
  | .bool b => b
  | .num n => n ≠ 0
  | .str s => s ≠ ""
  | .arr xs => ¬ xs.isEmpty
  | .obj fs => ¬ fs.isEmpty

/-- Does `j` equal the Python string `s`?  (`j == "s"`.) -/
def isStr (j : Json) (s : String) : Bool :=
  match j with
  | .str t => t = s
  | _ => false

/-- Python iteration (`for x in j`): lists yield elements, strings yield
1-character strings, dicts yield their keys; other values raise
`TypeError`. -/
def pyIter : Json → Except String (List Json)
  | .arr xs => .ok xs
  | .str s => .ok (s.toList.map fun c => .str (String.mk [c]))
  | .obj fs => .ok (fs.map fun p => .str p.1)
  | _ => .error "TypeError: not iterable"

/-- Python `str.replace(old, new)`: left-to-right, non-overlapping, all
occurrences.  (The core `String.replace` is not kernel-reducible; this
structural version is.) -/
def replaceGo (pat rep : List Char) : Nat → List Char → List Char
  | 0, cs => cs
  | _, [] => []
  | fuel + 1, c :: cs =>
      if pat.isPrefixOf (c :: cs) then
        rep ++ replaceGo pat rep fuel ((c :: cs).drop pat.length)
      else c :: replaceGo pat rep fuel cs

def pyReplace (s pat rep : String) : String :=
  if pat.toList.isEmpty then s
  else String.mk (replaceGo pat.toList rep.toList (s.toList.length + 1) s.toList)

/-- Python `str.strip()` (ASCII whitespace; claims never exercise the
unicode-only cases). -/
def pyStrip (s : String) : String :=
  String.mk
    (((s.toList.dropWhile Char.isWhitespace).reverse.dropWhile Char.isWhitespace).reverse)

/-- A raw line of the newline-delimited log file. -/
inductive Line where
  | blank
  | malformed (raw : String)
  | record (msg : Json)

/-! ### Timestamps -/

/-- A `datetime`: seconds relative to the epoch on the proleptic Gregorian
calendar, plus the UTC offset in seconds when the value is timezone-aware. -/
structure PyDateTime where
  secs : Int
  offset : Option Int

/-- Day count of a Gregorian date relative to 1970-01-01
(the standard civil-from-days inverse). -/
def daysFromCivil (y m d : Int) : Int :=
  let y' := if m ≤ 2 then y - 1 else y
  let era := (if 0 ≤ y' then y' else y' - 399) / 400
  let yoe := y' - era * 400
  let mp := if 2 < m then m - 3 else m + 9
  let doy := (153 * mp + 2) / 5 + d - 1
  let doe := yoe * 365 + yoe / 4 - yoe / 100 + doy
  era * 146097 + doe - 719468

def isLeapYear (y : Nat) : Bool :=
  y % 4 = 0 && (y % 100 ≠ 0 || y % 400 = 0)

def daysInMonth (y m : Nat) : Nat :=
  if m = 2 then (if isLeapYear y then 29 else 28)
  else if m = 4 ∨ m = 6 ∨ m = 9 ∨ m = 11 then 30
  else 31

def digitVal (c : Char) : Nat := c.toNat - 48

def twoDigits (a b : Char) : Nat := digitVal a * 10 + digitVal b

/-- Parse the date/time digits of the naive part accepted by `datetime.fromisoformat`:
`YYYY-MM-DD`, optionally followed by one separator character and
`HH:MM` or `HH:MM:SS`.  Returns epoch seconds.  (Fractional seconds never
reach this point: both call sites strip them beforehand.) -/
def isoNaive (cs : List Char) : Option Int :=
  match cs with
  | [y1, y2, y3, y4, '-', m1, m2, '-', d1, d2] =>
      isoDate y1 y2 y3 y4 m1 m2 d1 d2 0 0 0
  | [y1, y2, y3, y4, '-', m1, m2, '-', d1, d2, _, h1, h2, ':', n1, n2] =>
      isoDateTime y1 y2 y3 y4 m1 m2 d1 d2 h1 h2 n1 n2 '0' '0'
  | [y1, y2, y3, y4, '-', m1, m2, '-', d1, d2, _, h1, h2, ':', n1, n2, ':', s1, s2] =>
      isoDateTime y1 y2 y3 y4 m1 m2 d1 d2 h1 h2 n1 n2 s1 s2
  | _ => none
where
  isoDate (y1 y2 y3 y4 m1 m2 d1 d2 : Char) (hh nn ss : Nat) : Option Int :=
    if y1.isDigit ∧ y2.isDigit ∧ y3.isDigit ∧ y4.isDigit ∧ m1.isDigit ∧ m2.isDigit
        ∧ d1.isDigit ∧ d2.isDigit then
      let y := digitVal y1 * 1000 + digitVal y2 * 100 + digitVal y3 * 10 + digitVal y4
      let m := twoDigits m1 m2
      let d := twoDigits d1 d2
      if 1 ≤ y ∧ 1 ≤ m ∧ m ≤ 12 ∧ 1 ≤ d ∧ d ≤ daysInMonth y m then
        some (daysFromCivil y m d * 86400 + (hh * 3600 + nn * 60 + ss : Nat))
      else none
    else none
  isoDateTime (y1 y2 y3 y4 m1 m2 d1 d2 h1 h2 n1 n2 s1 s2 : Char) : Option Int :=
    if h1.isDigit ∧ h2.isDigit ∧ n1.isDigit ∧ n2.isDigit ∧ s1.isDigit ∧ s2.isDigit then
      let hh := twoDigits h1 h2
      let nn := twoDigits n1 n2
      let ss := twoDigits s1 s2
      if hh ≤ 23 ∧ nn ≤ 59 ∧ ss ≤ 59 then
        isoDate y1 y2 y3 y4 m1 m2 d1 d2 hh nn ss
      else none
    else none

/-- Model of `datetime.fromisoformat` on the strings this code can feed it: a naive
date/time, optionally suffixed with a `+HH:MM` / `-HH:MM` UTC offset
(making the value timezone-aware).  Anything else raises `ValueError`,
modelled as `none`. -/
def isoParse (s : String) : Option PyDateTime :=
  let cs := s.toList
  let n := cs.length
  let split : List Char × Option Int :=
    if 6 ≤ n then
      match cs.drop (n - 6) with
      | [sg, a, b, ':', c, d] =>
          if (sg = '+' ∨ sg = '-') ∧ a.isDigit ∧ b.isDigit ∧ c.isDigit ∧ d.isDigit then
            let hh := twoDigits a b
            let mm := twoDigits c d
            if hh ≤ 23 ∧ mm ≤ 59 then
              (cs.take (n - 6),
               some ((if sg = '-' then -1 else 1) * ((hh * 3600 + mm * 60 : Nat) : Int)))
            else (cs, none)
          else (cs, none)
      | _ => (cs, none)
    else (cs, none)
  match isoNaive split.1 with
  | some secs => some ⟨secs, split.2⟩
  | none => none

/-- The function `parse_timestamp` (live-session-indexer.py): falsy values parse to
`None`; the bare `except` turns a non-string (`.replace` raising
`AttributeError`) or an unparseable string into `None`.  Strings are
preprocessed: `Z` becomes `+00:00`, a fractional-seconds part is cut (the
text from the first `.` up to the first `+`, or the whole tail when there
is no `+`), and a literal `+00:00` is removed. -/
def parse_timestamp (j : Json) : Option PyDateTime :=
  if pyTruthy j then
    match j with
    | .str s =>
        let s1 := pyReplace s "Z" "+00:00"
        let cs := s1.toList
        let s2 :=
          if cs.contains '.' then
            let dotIdx := (cs.takeWhile (· ≠ '.')).length
            if cs.contains '+' then
              let plusIdx := (cs.takeWhile (· ≠ '+')).length
              String.mk (cs.take dotIdx ++ cs.drop plusIdx)
            else String.mk (cs.take dotIdx)
          else s1
        isoParse (pyReplace s2 "+00:00" "")
    | _ => none
  else none

/-- The subtraction `curr_ts - prev_ts` followed by `.total_seconds()`: naive−naive and
aware−aware subtract (converting aware values to UTC); mixing raises
`TypeError`. -/
def tdiffSecs (a b : PyDateTime) : Except String Int :=
  match a.offset, b.offset with
  | none, none => .ok (a.secs - b.secs)
  | some x, some y => .ok ((a.secs - x) - (b.secs - y))
  | _, _ => .error "TypeError: aware and naive datetime"

/-! ### Boundary detection (`is_segment_boundary`) -/

def MIN_SEGMENT_LINES : Nat := 10
def MAX_SEGMENT_LINES : Nat := 100
/-- The `gap > TIME_GAP_MINUTES` test with `gap = total_seconds()/60`:
on whole-second datetimes this is exactly `seconds > 300`. -/
def TIME_GAP_SECONDS : Int := 300

/-- The TodoWrite scan of `is_segment_boundary`: does any todo of any
`tool_use` item named `TodoWrite` have `status == "completed"`?
`todo.get` raises on non-dict todos; a non-dict `input` raises at
`.get("todos", [])`. -/
def todosHaveCompleted : List Json → Except String Bool
  | [] => .ok false
  | t :: ts =>
      match pyGet t "status" .null with
      | .error e => .error e
      | .ok st => if isStr st "completed" then .ok true else todosHaveCompleted ts

def itemsTaskCompleted : List Json → Except String Bool
  | [] => .ok false
  | it :: its =>
      match it with
      | .obj fs =>
          if isStr (objGetD fs "type" .null) "tool_use"
              ∧ isStr (objGetD fs "name" .null) "TodoWrite" then
            match pyGet (objGetD fs "input" (.obj [])) "todos" (.arr []) with
            | .error e => .error e
            | .ok todosJ =>
                match pyIter todosJ with
                | .error e => .error e
                | .ok todos =>
                    match todosHaveCompleted todos with
                    | .error e => .error e
                    | .ok true => .ok true
                    | .ok false => itemsTaskCompleted its
          else itemsTaskCompleted its
      | _ => itemsTaskCompleted its

/-- Rules 3–5 of `is_segment_boundary` (time gap, task completion, new
topic), evaluated only once the line-count gates have passed. -/
def boundarySignals (current : Json) (prev : Option Json) :
    Except String (Bool × Option String) :=
  -- curr_ts = parse_timestamp(current_msg.get("timestamp"))
  match pyGet current "timestamp" .null with
  | .error e => .error e
  | .ok currTsJ =>
    -- prev_ts = parse_timestamp(prev_msg.get("timestamp")) if prev_msg else None
    let prevTsE : Except String (Option PyDateTime) :=
      match prev with
      | some p =>
          if pyTruthy p then
            match pyGet p "timestamp" .null with
            | .error e => .error e
            | .ok j => .ok (parse_timestamp j)
          else .ok none
      | none => .ok none
    match prevTsE with
    | .error e => .error e
    | .ok prevTs =>
      let gapStep : Except String (Option (Bool × Option String)) :=
        match parse_timestamp currTsJ, prevTs with
        | some a, some b =>
            match tdiffSecs a b with
            | .error e => .error e
            | .ok d => if d > TIME_GAP_SECONDS then .ok (some (true, some "time_gap")) else .ok none
        | _, _ => .ok none
      match gapStep with
      | .error e => .error e
      | .ok (some r) => .ok r
      | .ok none =>
        match pyGet current "type" .null with
        | .error e => .error e
        | .ok ty =>
          if isStr ty "assistant" then
            match pyGet current "message" (.obj []) with
            | .error e => .error e
            | .ok msgF =>
              match pyGet msgF "content" (.arr []) with
              | .error e => .error e
              | .ok contentList =>
                match contentList with
                | .arr items =>
                    match itemsTaskCompleted items with
                    | .error e => .error e
                    | .ok true => .ok (true, some "task_completed")
                    | .ok false => .ok (false, none)
                | _ => .ok (false, none)
          else if isStr ty "user" then
            match prev with
            | some p =>
                if pyTruthy p then
                  match pyGet p "type" .null with
                  | .error e => .error e
                  | .ok pty =>
                    if isStr pty "assistant" then
                      match pyGet current "message" (.obj []) with
                      | .error e => .error e
                      | .ok msgF =>
                        match pyGet msgF "content" (.str "") with
                        | .error e => .error e
                        | .ok c =>
                          match c with
                          | .str s => if s.length > 50 then .ok (true, some "new_topic") else .ok (false, none)
                          | _ => .ok (false, none)
                    else .ok (false, none)
                else .ok (false, none)
            | none => .ok (false, none)
          else .ok (false, none)

/-- The function `is_segment_boundary(current_msg, prev_msg, line_count)`. -/
def is_segment_boundary (current : Json) (prev : Option Json) (lineCount : Nat) :
    Except String (Bool × Option String) :=
  if lineCount ≥ MAX_SEGMENT_LINES then .ok (true, some "max_lines")
  else if lineCount < MIN_SEGMENT_LINES then .ok (false, none)
  else boundarySignals current prev

/-! ### Fixed-vocabulary / pattern extraction -/

def pyLower (s : String) : String := String.mk (s.toList.map Char.toLower)

/-- Python `needle in hay` on strings. -/
def containsSub (hay needle : String) : Bool :=
  decide (List.IsInfix needle.toList hay.toList)

/-- The `DOMAIN_KEYWORDS` set, enumerated in source order (CPython set
iteration order is unspecified; no claim depends on it). -/
def DOMAIN_KEYWORDS : List String :=
  ["authentication", "auth", "login", "oauth", "jwt", "session",
   "database", "sql", "postgres", "mysql", "sqlite", "mongodb",
   "api", "rest", "graphql", "endpoint", "route", "http",
   "hooks", "automation", "script", "cron",
   "rlm", "chunking", "context", "memory", "persistence",
   "skills", "skill", "learning", "pattern",
   "testing", "test", "jest", "pytest",
   "deployment", "deploy", "docker", "kubernetes",
   "error", "bug", "fix", "debug",
   "refactor", "optimize", "performance",
   "ui", "frontend", "react", "vue",
   "backend", "server", "node", "python", "deno", "bun"]

/-- The function `extract_topics`: substring membership of each keyword in the lowered
content; the returned "set" is the matching keywords in enumeration
order. -/
def extract_topics (content : String) : List String :=
  let contentLower := if content ≠ "" then pyLower content else ""
  DOMAIN_KEYWORDS.filter fun k => containsSub contentLower k

/-- Insert into an insertion-ordered set. -/
def setInsert (acc : List String) (x : String) : List String :=
  if acc.contains x then acc else acc ++ [x]

def setUnion (acc : List String) (xs : List String) : List String :=
  xs.foldl setInsert acc

def squoteChar : Char := Char.ofNat 39
def bquoteChar : Char := Char.ofNat 96

def fileExts : List (List Char) :=
  ["py".toList, "ts".toList, "js".toList, "md".toList,
   "json".toList, "tsx".toList, "jsx".toList]

/-- Does a quoted run match `[^"\x27]+\.(py|ts|js|md|json|tsx|jsx)` up to
its closing quote?  Equivalently: at least one character before a dot,
and the run ends in `.ext` for one of the extensions. -/
def innerMatchesExt (inner : List Char) : Bool :=
  fileExts.any fun e =>
    decide (e.length + 2 ≤ inner.length) && ('.' :: e).isSuffixOf inner

/-- Model of `re.findall` for the file-path patterns of `extract_files`: a match
starts at a quote character, spans a maximal run of non-quote characters,
and ends at the next quote; the run must satisfy `innerMatchesExt`.
Scanning resumes after the closing quote on a match, and at the closing
quote (the next possible opener) on a failed attempt.  `fuel` (initially
the text length, an upper bound on the number of scan steps) makes the
recursion structural. -/
def scanQuotedGo (isQ : Char → Bool) : Nat → List Char → List (List Char)
  | 0, _ => []
  | _, [] => []
  | fuel + 1, c :: rest =>
      if isQ c then
        let inner := rest.takeWhile fun d => ¬ isQ d
        let rest2 := rest.drop inner.length
        match rest2 with
        | [] => []
        | _ :: rest3 =>
            if ¬ inner.isEmpty ∧ innerMatchesExt inner then
              inner :: scanQuotedGo isQ fuel rest3
            else scanQuotedGo isQ fuel rest2
      else scanQuotedGo isQ fuel rest

/-- The function `extract_files`: the two quoted-path patterns (single/double quotes,
then backticks); results form an insertion-ordered set. -/
def extract_files (content : String) : List String :=
  if content = "" then []
  else
    let cs := content.toList
    let m1 := scanQuotedGo (fun c => c = '"' ∨ c = squoteChar) cs.length cs
    let m2 := scanQuotedGo (fun c => c = bquoteChar) cs.length cs
    setUnion [] ((m1 ++ m2).map fun l => String.mk l)

/-- Decision-pattern lead phrases (first pattern family), in alternation
order.  Built with `squoteChar` for the apostrophes. -/
def decisionLeads1 : List (List Char) :=
  [['I', squoteChar, 'l', 'l'],
   ['L', 'e', 't', squoteChar, 's'],
   "We should".toList,
   ['I', squoteChar, 'v', 'e', ' ', 'd', 'e', 'c', 'i', 'd', 'e', 'd'],
   "decided to".toList,
   "going to".toList]

def decisionLeads2 : List (List Char) :=
  ["approach".toList, "strategy".toList, "solution".toList]

/-- The group character class `[^.!?\n]`. -/
def isTermChar (c : Char) : Bool := c = '.' ∨ c = '!' ∨ c = '?' ∨ c = '\n'

/-- Case-insensitive literal prefix test (`re.IGNORECASE`). -/
def lowersTo (cs lead : List Char) : Bool :=
  (cs.take lead.length).map Char.toLower == lead.map Char.toLower

/-- Regex backtracking of a greedy whitespace run `\s+`/`\s*` into the
following group `[^.!?\n]+` when no group character follows the run: the
engine gives back trailing whitespace (which, apart from newlines, is a
legal group character) one char at a time, keeping at least `minKeep`
characters in the run; greedily the group then spans from the give-back
point to the next newline.  Returns the group and the rest of the input
after the match. -/
def backtrackGroup (w rest : List Char) (minKeep : Nat) :
    Option (List Char × List Char) :=
  let ks := (List.range w.length).filter fun k =>
    decide (minKeep ≤ k) &&
      (match w.get? k with
       | some c => decide (c ≠ '\n')
       | none => false)
  match ks.max? with
  | some k =>
      let tailw := w.drop k
      let grp := tailw.takeWhile fun c => c ≠ '\n'
      some (grp, tailw.drop grp.length ++ rest)
  | none => none

/-- One alternative of pattern family 1 at the current position:
`lead` + `\s+` + `([^.!?\n]+)`. -/
def tryLead1 (cs lead : List Char) : Option (List Char × List Char) :=
  if lowersTo cs lead then
    let after := cs.drop lead.length
    let w := after.takeWhile Char.isWhitespace
    let rest := after.drop w.length
    if w.isEmpty then none
    else
      let g := rest.takeWhile fun c => ¬ isTermChar c
      if ¬ g.isEmpty then some (g, rest.drop g.length)
      else backtrackGroup w rest 1
  else none

/-- One alternative of pattern family 2:
`lead` + `:` + `\s*` + `([^.!?\n]+)`. -/
def tryLead2 (cs lead : List Char) : Option (List Char × List Char) :=
  if lowersTo cs lead then
    match cs.drop lead.length with
    | ':' :: after =>
        let w := after.takeWhile Char.isWhitespace
        let rest := after.drop w.length
        let g := rest.takeWhile fun c => ¬ isTermChar c
        if ¬ g.isEmpty then some (g, rest.drop g.length)
        else backtrackGroup w rest 0
    | _ => none
  else none

def tryPat1 (cs : List Char) : Option (List Char × List Char) :=
  decisionLeads1.findSome? fun lead => tryLead1 cs lead

def tryPat2 (cs : List Char) : Option (List Char × List Char) :=
  decisionLeads2.findSome? fun lead => tryLead2 cs lead

/-- Model of the `re.findall` scan: try a match at each position, left to right,
non-overlapping.  `fuel` bounds the number of steps (each step consumes at
least one character). -/
def scanDecisionsGo (att : List Char → Option (List Char × List Char)) :
    Nat → List Char → List (List Char)
  | 0, _ => []
  | _, [] => []
  | fuel + 1, cs@(_ :: rest) =>
      match att cs with
      | some (grp, rem) => grp :: scanDecisionsGo att fuel rem
      | none => scanDecisionsGo att fuel rest

/-- The function `extract_decisions`: both pattern families in order, keep raw groups of
length in (10, 200), strip them, first 5. -/
def extract_decisions (content : String) : List String :=
  if content = "" then []
  else
    let cs := content.toList
    let m1 := scanDecisionsGo tryPat1 cs.length cs
    let m2 := scanDecisionsGo tryPat2 cs.length cs
    (((m1 ++ m2).filter fun g => decide (10 < g.length) && decide (g.length < 200)).map
        fun g => pyStrip (String.mk g)).take 5

/-! ### Segment summarisation (`create_segment_summary`) -/

structure SegData where
  topics : List String
  files_touched : List String
  tools_used : List (String × Nat)
  decisions : List String
  summary : String

structure SummaryState where
  topics : List String
  files : List String
  tools : List (String × Nat)
  decisions : List String

/-- The tally `tools[tool_name] = tools.get(tool_name, 0) + 1` on an
insertion-ordered dict. -/
def toolsTally (ts : List (String × Nat)) (name : String) : List (String × Nat) :=
  if ts.any fun p => p.1 = name then
    ts.map fun p => if p.1 = name then (p.1, p.2 + 1) else p
  else ts ++ [(name, 1)]

/-- The inner loop over the content items of an assistant message.
A truthy non-string `text` raises `AttributeError` inside
`extract_topics` (at `.lower()`); a falsy one acts as `""` and
contributes nothing.  A non-string tool name either is unhashable
(`TypeError` at the tally) or, if hashable, raises `TypeError` later at
the `', '.join` over tool names in the summary line; both abort the run
before any output, which the model raises here. -/
def summaryItems : List Json → SummaryState → Except String SummaryState
  | [], st => .ok st
  | it :: its, st =>
      match it with
      | .obj fs =>
          if isStr (objGetD fs "type" .null) "text" then
            match objGetD fs "text" (.str "") with
            | .str t =>
                summaryItems its
                  { st with topics := setUnion st.topics (extract_topics t),
                            decisions := st.decisions ++ extract_decisions t }
            | j =>
                if pyTruthy j then .error "AttributeError: lower"
                else summaryItems its st
          else if isStr (objGetD fs "type" .null) "tool_use" then
            match objGetD fs "name" (.str "unknown") with
            | .str name =>
                let st1 := { st with tools := toolsTally st.tools name }
                match objGetD fs "input" (.obj []) with
                | .obj inputFs =>
                    summaryItems its
                      (inputFs.foldl
                        (fun s p =>
                          match p.2 with
                          | .str v => { s with files := setUnion s.files (extract_files v) }
                          | _ => s)
                        st1)
                | _ => summaryItems its st1
            | _ => .error "TypeError: non-string tool name"
      else summaryItems its st
      | _ => summaryItems its st

def summaryMsg (msg : Json) (st : SummaryState) : Except String SummaryState :=
  match pyGet msg "type" .null with
  | .error e => .error e
  | .ok ty =>
    if isStr ty "user" then
      match pyGet msg "message" (.obj []) with
      | .error e => .error e
      | .ok mf =>
        match pyGet mf "content" (.str "") with
        | .error e => .error e
        | .ok c =>
          match c with
          | .str s =>
              .ok { st with topics := setUnion st.topics (extract_topics s),
                            files := setUnion st.files (extract_files s) }
          | _ => .ok st
    else if isStr ty "assistant" then
      match pyGet msg "message" (.obj []) with
      | .error e => .error e
      | .ok mf =>
        match pyGet mf "content" (.arr []) with
        | .error e => .error e
        | .ok cl =>
          match cl with
          | .arr items => summaryItems items st
          | _ => .ok st
    else .ok st

def summaryAccum : List Json → SummaryState → Except String SummaryState
  | [], st => .ok st
  | m :: ms, st =>
      match summaryMsg m st with
      | .error e => .error e
      | .ok st2 => summaryAccum ms st2

/-- Stable insertion into a count-descending list (`sorted` with
`key=count, reverse=True` is stable: earlier entries precede equal-count
later ones). -/
def insToolDesc (x : String × Nat) : List (String × Nat) → List (String × Nat)
  | [] => [x]
  | y :: ys => if y.2 > x.2 then y :: insToolDesc x ys else x :: y :: ys

def sortToolsDesc : List (String × Nat) → List (String × Nat)
  | [] => []
  | x :: xs => insToolDesc x (sortToolsDesc xs)

/-- The final dict built by `create_segment_summary` (the `[:10]`, top-5,
`[:3]` caps and the summary line). -/
def finishSummary (st : SummaryState) : SegData :=
  let topTools := sortToolsDesc st.tools
  let parts :=
    (if st.topics.isEmpty then [] else
      ["Topics: " ++ String.intercalate ", " (st.topics.take 5)]) ++
    (if st.files.isEmpty then [] else
      ["Files: " ++ toString st.files.length]) ++
    (if st.tools.isEmpty then [] else
      ["Tools: " ++ String.intercalate ", " ((topTools.take 3).map Prod.fst)])
  { topics := st.topics.take 10
    files_touched := st.files.take 10
    tools_used := topTools.take 5
    decisions := st.decisions.take 3
    summary := if parts.isEmpty then "General discussion"
               else String.intercalate " | " parts }

def create_segment_summary (msgs : List Json) : Except String SegData :=
  match summaryAccum msgs { topics := [], files := [], tools := [], decisions := [] } with
  | .error e => .error e
  | .ok st => .ok (finishSummary st)

/-! ### The segment index (`index_session` / `save_segment_index`) -/

structure Segment where
  segment_id : String
  start_line : Nat
  end_line : Nat
  line_count : Nat
  boundary_type : Option String
  timestamp : Json
  topics : List String
  files_touched : List String
  tools_used : List (String × Nat)
  decisions : List String
  summary : String

/-- The in-memory active segment.  `messages = none` models the absent
`"messages"` key of a header loaded from a persisted index
(`save_segment_index` stores only id, start line and line count). -/
structure ActiveSeg where
  segment_id : String
  start_line : Nat
  line_count : Nat
  messages : Option (List Json)

structure Index where
  version : Nat
  session_id : Option String
  project : Option String
  jsonl_file : Option String
  last_indexed_line : Nat
  segments : List Segment
  active_segment : Option ActiveSeg
  total_segments : Option Nat
  last_updated : Option String

structure SessionInfo where
  path : String
  project : String
  session_id : String

/-- The empty index created by `load_segment_index` when the file is
missing or corrupt. -/
def emptyIndex : Index :=
  { version := 1, session_id := none, project := none, jsonl_file := none,
    last_indexed_line := 0, segments := [], active_segment := none,
    total_segments := none, last_updated := none }

/-- The function `save_segment_index`: stamps `last_updated` and writes the whole
structure; on the data itself it is the identity. -/
def save_segment_index (now : String) (idx : Index) : Index :=
  { idx with last_updated := some now }

/-- Python format of segment ids: seg- followed by n zero-padded to width 3. -/
def formatSegId (n : Nat) : String :=
  "seg-" ++ (if n < 10 then "00" ++ toString n
             else if n < 100 then "0" ++ toString n
             else toString n)

/-- The per-line loop of `index_session` over the unindexed suffix.
`i` is the absolute line number of the head of the list.  Blank lines,
undecodable lines and snapshot/summary records are skipped without
touching any state (in particular without updating `prev`).  A boundary
with a non-empty buffered message list seals the active segment with
`end_line = i - 1` and starts a fresh active segment at line `i`; the
current record is then appended to the (possibly fresh) active segment.
Both `active_segment["messages"]` accesses raise `KeyError` when the
active segment came from a persisted header. -/
def indexLoop (nowIso : String) :
    List Line → Nat → Option Json → List Segment → ActiveSeg →
    Except String (List Segment × ActiveSeg)
  | [], _, _, segs, act => .ok (segs, act)
  | l :: rest, i, prev, segs, act =>
      match l with
      | .blank => indexLoop nowIso rest (i + 1) prev segs act
      | .malformed _ => indexLoop nowIso rest (i + 1) prev segs act
      | .record msg =>
          match pyGet msg "type" .null with
          | .error e => .error e
          | .ok ty =>
            if isStr ty "file-history-snapshot" ∨ isStr ty "summary" then
              indexLoop nowIso rest (i + 1) prev segs act
            else
              match is_segment_boundary msg prev act.line_count with
              | .error e => .error e
              | .ok (isB, bt) =>
                  if isB then
                    match act.messages with
                    | none => .error "KeyError: messages"
                    | some [] =>
                        indexLoop nowIso rest (i + 1) (some msg) segs
                          { act with messages := some [msg],
                                     line_count := act.line_count + 1 }
                    | some (m0 :: ms') =>
                            match create_segment_summary (m0 :: ms') with
                            | .error e => .error e
                            | .ok sd =>
                              match pyGet m0 "timestamp" (.str nowIso) with
                              | .error e => .error e
                              | .ok tsJ =>
                                let entry : Segment :=
                                  { segment_id := act.segment_id,
                                    start_line := act.start_line,
                                    end_line := i - 1,
                                    line_count := act.line_count,
                                    boundary_type := bt,
                                    timestamp := tsJ,
                                    topics := sd.topics,
                                    files_touched := sd.files_touched,
                                    tools_used := sd.tools_used,
                                    decisions := sd.decisions,
                                    summary := sd.summary }
                                let segs2 := segs ++ [entry]
                                indexLoop nowIso rest (i + 1) (some msg) segs2
                                  { segment_id := formatSegId segs2.length,
                                    start_line := i, line_count := 1,
                                    messages := some [msg] }
                  else
                    match act.messages with
                    | none => .error "KeyError: messages"
                    | some ms =>
                        indexLoop nowIso rest (i + 1) (some msg) segs
                          { act with messages := some (ms ++ [msg]),
                                     line_count := act.line_count + 1 }

/-- The function `index_session`.  The contents of the log file are passed as `log`
(`none` models `FileNotFoundError`/`IOError`, returning the existing
index unchanged).  `nowIso` is `datetime.now().isoformat()`, used only as
the default timestamp of a sealed segment whose first record lacks one.
The run returns the existing index unchanged when there are no new lines;
otherwise it processes lines from `last_indexed_line` on and rebuilds the
metadata, the segment list, the active-segment *header* (no `messages`
key) and the cursor. -/
def index_session (nowIso : String) (info : SessionInfo)
    (log : Option (List Line)) (existing : Index) : Except String Index :=
  match log with
  | none => .ok existing
  | some lines =>
    let startLine := existing.last_indexed_line
    if startLine ≥ lines.length then .ok existing
    else
      let act : ActiveSeg :=
        match existing.active_segment with
        | none =>
            { segment_id := formatSegId existing.segments.length,
              start_line := startLine, line_count := 0, messages := some [] }
        | some a => a
      match indexLoop nowIso (lines.drop startLine) startLine none existing.segments act with
      | .error e => .error e
      | .ok (segs, actF) =>
          .ok { existing with
                session_id := some info.session_id,
                project := some info.project,
                jsonl_file := some info.path,
                segments := segs,
                active_segment := some
                  { segment_id := actF.segment_id, start_line := actF.start_line,
                    line_count := actF.line_count, messages := none },
                last_indexed_line := lines.length,
                total_segments := some segs.length }

/-! ### Recovery scoring and selection (session-recovery.py) -/

/-- The exact value of a Python float score, kept as an unnormalised
fraction with positive denominator (every construction below multiplies
positive denominators).  Every float the scoring code produces is a sum
of a few small terms, where IEEE doubles are exact for the (in)equalities
asserted in this file, so exact fractions are a faithful model. -/
structure PyFloat where
  num : Int
  den : Nat

def PyFloat.ofInt (n : Int) : PyFloat := ⟨n, 1⟩

def PyFloat.add (a b : PyFloat) : PyFloat :=
  ⟨a.num * (b.den : Int) + b.num * (a.den : Int), a.den * b.den⟩

def PyFloat.sub (a b : PyFloat) : PyFloat :=
  ⟨a.num * (b.den : Int) - b.num * (a.den : Int), a.den * b.den⟩

def PyFloat.divNat (a : PyFloat) (k : Nat) : PyFloat := ⟨a.num, a.den * k⟩

def PyFloat.mulInt (a : PyFloat) (k : Int) : PyFloat := ⟨a.num * k, a.den⟩

/-- Strict value comparison (denominators positive). -/
def PyFloat.blt (a b : PyFloat) : Bool := a.num * (b.den : Int) < b.num * (a.den : Int)

/-- Python `max(0, a)`. -/
def PyFloat.max0 (a : PyFloat) : PyFloat := if a.num < 0 then ⟨0, 1⟩ else a

/-- Value equality of two fractions. -/
def PyFloat.valEq (a b : PyFloat) : Prop :=
  a.num * (b.den : Int) = b.num * (a.den : Int)

/-- Python `str.split()` (maximal whitespace-separated words). -/
def wordsByGo (p : Char → Bool) : List Char → List Char → List String
  | [], cur => if cur.isEmpty then [] else [String.mk cur.reverse]
  | c :: cs, cur =>
      if p c then
        if cur.isEmpty then wordsByGo p cs []
        else String.mk cur.reverse :: wordsByGo p cs []
      else wordsByGo p cs (c :: cur)

def splitWs (s : String) : List String :=
  wordsByGo Char.isWhitespace s.toList []

/-- Python `os.path.basename` on POSIX: the part after the last `/`. -/
def basename (s : String) : String :=
  String.mk ((s.toList.reverse.takeWhile fun c => c ≠ '/').reverse)

/-- The timestamp preprocessing of `score_segment`:
`ts_str.replace('Z','').split('.')[0]`, then `fromisoformat`. -/
def scoreParseTs (s : String) : Option PyDateTime :=
  let s1 := pyReplace s "Z" ""
  isoParse (String.mk (s1.toList.takeWhile fun c => c ≠ '.'))

/-- The recency term of `score_segment`: the whole block sits in a bare
`try/except`, so a falsy or non-string or unparseable timestamp, and the
`TypeError` of subtracting an aware timestamp from the naive `now`, all
contribute 0; otherwise `max(0, 50 - hours_ago*5)`. -/
def recencyScore (segment : Segment) (now : Int) : PyFloat :=
  match segment.timestamp with
  | .str s =>
      if s ≠ "" then
        match scoreParseTs s with
        | some dt =>
            match dt.offset with
            | none =>
                (((PyFloat.ofInt 50).sub
                  (((PyFloat.ofInt (now - dt.secs)).divNat 3600).mulInt 5))).max0
            | some _ => .ofInt 0
        | none => .ofInt 0
      else .ofInt 0
  | _ => .ofInt 0

/-- The pending-task term: `10 × |topics ∩ words(todo)|` summed over the
pending todos (an integer). -/
def topicScoreInt (segment : Segment) (pending_todos : List String) : Int :=
  pending_todos.foldl
    (fun acc todo =>
      acc + 10 * (((setUnion [] (segment.topics.map pyLower)).countP
        fun t => (splitWs todo).contains t : Nat) : Int))
    0

/-- The additive assembly of `score_segment`. -/
def scoreCombine (recency : PyFloat) (topicT decS editS todoS boundS : Int) : PyFloat :=
  ((((recency.add (.ofInt topicT)).add (.ofInt decS)).add
      (.ofInt editS)).add (.ofInt todoS)).add (.ofInt boundS)

/-- The function `score_segment(segment, pending_todos, now)`; `now` is the naive
`datetime.now()` in epoch seconds, lifted to a parameter. -/
def score_segment (segment : Segment) (pending_todos : List String) (now : Int) : PyFloat :=
  scoreCombine (recencyScore segment now) (topicScoreInt segment pending_todos)
    (if segment.decisions.isEmpty then 0 else 10)
    (if (segment.tools_used.any fun p => p.1 = "Edit")
        ∨ (segment.tools_used.any fun p => p.1 = "Write") then 15 else 0)
    (if segment.tools_used.any fun p => p.1 = "TodoWrite" then 5 else 0)
    (match segment.boundary_type with
     | some bt => if bt = "task_completed" then 10 else if bt = "new_topic" then 5 else 0
     | none => 0)

/-- The comprehension `[t.get("content", "") for t in todos if t.get("status") == statusVal]`
(the raw JSON values; `t.get` raises on non-dict todos). -/
def extractTodoStrs (todos : List Json) (statusVal : String) :
    Except String (List Json) :=
  match todos with
  | [] => .ok []
  | t :: ts =>
      match pyGet t "status" .null with
      | .error e => .error e
      | .ok st =>
          if isStr st statusVal then
            match pyGet t "content" (.str "") with
            | .error e => .error e
            | .ok c =>
                match extractTodoStrs ts statusVal with
                | .error e => .error e
                | .ok rest => .ok (c :: rest)
          else extractTodoStrs ts statusVal

/-- Python `', '.join` raises `TypeError` on non-string elements. -/
def asStrs : List Json → Except String (List String)
  | [] => .ok []
  | .str s :: xs =>
      match asStrs xs with
      | .error e => .error e
      | .ok r => .ok (s :: r)
  | _ :: _ => .error "TypeError: join of non-string"

/-- The assistant-item loop of `extract_segment_content`. -/
def extractItems : List Json → List String → Except String (List String)
  | [], parts => .ok parts
  | it :: its, parts =>
      match it with
      | .obj fs =>
          if isStr (objGetD fs "type" .null) "text" then
            match objGetD fs "text" (.str "") with
            | .str t =>
                if pyStrip t ≠ "" then
                  extractItems its (parts ++ ["ASSISTANT: " ++ String.mk (t.toList.take 500)])
                else extractItems its parts
            | _ => .error "AttributeError: strip"
          else if isStr (objGetD fs "type" .null) "tool_use" then
            let name := objGetD fs "name" (.str "")
            let toolInput := objGetD fs "input" (.obj [])
            if isStr name "Edit" ∨ isStr name "Write" then
              match pyGet toolInput "file_path" (.str "") with
              | .error e => .error e
              | .ok fp =>
                  match fp with
                  | .str p => extractItems its (parts ++ ["[Modified: " ++ basename p ++ "]"])
                  | _ => .error "TypeError: basename of non-string"
            else if isStr name "TodoWrite" then
              (match pyGet toolInput "todos" (.arr []) with
               | .error e => .error e
               | .ok todosJ =>
                 match pyIter todosJ with
                 | .error e => .error e
                 | .ok todos =>
                   match extractTodoStrs todos "completed" with
                   | .error e => .error e
                   | .ok completed =>
                     match extractTodoStrs todos "in_progress" with
                     | .error e => .error e
                     | .ok inProgress =>
                       match asStrs (completed.take 3) with
                       | .error e => .error e
                       | .ok compStrs =>
                         match asStrs (inProgress.take 2) with
                         | .error e => .error e
                         | .ok progStrs =>
                           let parts2 :=
                             if completed.isEmpty then parts
                             else parts ++
                               ["[Completed: " ++ String.intercalate ", " compStrs ++ "]"]
                           let parts3 :=
                             if inProgress.isEmpty then parts2
                             else parts2 ++
                               ["[Working on: " ++ String.intercalate ", " progStrs ++ "]"]
                           extractItems its parts3)
            else extractItems its parts
          else extractItems its parts
      | _ => extractItems its parts

/-- The per-line loop of `extract_segment_content`. -/
def extractLines : List Line → List String → Except String (List String)
  | [], parts => .ok parts
  | l :: ls, parts =>
      match l with
      | .blank => extractLines ls parts
      | .malformed _ => extractLines ls parts
      | .record msg =>
          match pyGet msg "type" .null with
          | .error e => .error e
          | .ok ty =>
            if isStr ty "user" then
              match pyGet msg "message" (.obj []) with
              | .error e => .error e
              | .ok mf =>
                match pyGet mf "content" (.str "") with
                | .error e => .error e
                | .ok c =>
                  match c with
                  | .str s =>
                      if pyStrip s ≠ "" then
                        extractLines ls (parts ++ ["USER: " ++ String.mk (s.toList.take 500)])
                      else extractLines ls parts
                  | _ => extractLines ls parts
            else if isStr ty "assistant" then
              match pyGet msg "message" (.obj []) with
              | .error e => .error e
              | .ok mf =>
                match pyGet mf "content" (.arr []) with
                | .error e => .error e
                | .ok cl =>
                  match cl with
                  | .arr items =>
                      match extractItems items parts with
                      | .error e => .error e
                      | .ok parts2 => extractLines ls parts2
                  | _ => extractLines ls parts
            else extractLines ls parts

/-- The function `extract_segment_content(jsonl_path, start_line, end_line)`:
lines `start_line .. min(end_line, len-1)` rendered and joined with
newlines. -/
def extract_segment_content (lines : List Line) (startLine endLine : Nat) :
    Except String String :=
  match extractLines ((lines.take (min (endLine + 1) lines.length)).drop startLine) [] with
  | .error e => .error e
  | .ok parts => .ok (String.intercalate "\n" parts)

/-- A `selected` entry of `select_best_segments`. -/
structure SelectedSeg where
  segment_id : String
  score : PyFloat
  topics : List String
  summary : String
  content : String

/-- Stable score-descending insertion (Python `sort` with
`reverse=True` keeps the original order of equal scores). -/
def insScoredDesc (x : PyFloat × Segment) :
    List (PyFloat × Segment) → List (PyFloat × Segment)
  | [] => [x]
  | y :: ys => if PyFloat.blt x.1 y.1 then y :: insScoredDesc x ys else x :: y :: ys

def sortScoredDesc : List (PyFloat × Segment) → List (PyFloat × Segment)
  | [] => []
  | x :: xs => insScoredDesc x (sortScoredDesc xs)

/-- The selection loop: skip a segment whose `line_count*100` estimate
would push the running total past the budget; otherwise extract its
content, include it when the content is non-empty, add the *actual*
content length to the running total, and stop once the total reaches the
budget. -/
def selectGo (lines : List Line) (budget : Nat) :
    List (PyFloat × Segment) → Nat → List SelectedSeg →
    Except String (List SelectedSeg)
  | [], _, acc => .ok acc
  | (sc, seg) :: rest, total, acc =>
      if total + seg.line_count * 100 > budget then
        selectGo lines budget rest total acc
      else
        match extract_segment_content lines seg.start_line seg.end_line with
        | .error e => .error e
        | .ok content =>
            let incl := content ≠ ""
            let total2 := if incl then total + content.length else total
            let acc2 :=
              if incl then
                acc ++ [{ segment_id := seg.segment_id, score := sc,
                          topics := seg.topics, summary := seg.summary,
                          content := content }]
              else acc
            if total2 ≥ budget then .ok acc2 else selectGo lines budget rest total2 acc2

/-- The function `select_best_segments(segments, pending_todos, jsonl_path, budget)`.
`now` is the `datetime.now()` the function reads internally, lifted to a
parameter, in naive epoch seconds. -/
def select_best_segments (segments : List Segment) (pending_todos : List String)
    (lines : List Line) (budget : Nat) (now : Int) :
    Except String (List SelectedSeg) :=
  if segments.isEmpty then .ok []
  else
    selectGo lines budget
      (sortScoredDesc (segments.map fun seg => (score_segment seg pending_todos now, seg)))
      0 []

/-! ### Specification predicates -/

/-- The sealed segments `segs` consecutively tile `[lo, hi)`: the first
starts at `lo`, each covers the non-empty inclusive line range
`[start_line, end_line]`, each next segment starts at the previous
`end_line + 1`, and the last ends at `hi - 1`. -/
def chainFrom : Nat → List Segment → Nat → Prop
  | lo, [], hi => lo = hi
  | lo, s :: rest, hi =>
      s.start_line = lo ∧ lo ≤ s.end_line ∧ chainFrom (s.end_line + 1) rest hi

/-- The summary caps of a stored segment (C10). -/
def SegCaps (s : Segment) : Prop :=
  s.topics.length ≤ 10 ∧ s.files_touched.length ≤ 10 ∧
    s.tools_used.length ≤ 5 ∧ s.decisions.length ≤ 3

/-- The budget-gating invariant of the selection loop: starting from a
running total `total` of already-extracted characters, the estimated size of each selected
segment (100 x its line count, recovered through `f`
from its id) fits within the budget together with the actual lengths of
the content extracted before it. -/
def Gated (budget : Nat) (f : String → Nat) : Nat → List SelectedSeg → Prop
  | _, [] => True
  | total, x :: rest =>
      total + 100 * f x.segment_id ≤ budget ∧
        Gated budget f (total + x.content.length) rest

/-- Erase the (ignored) text of undecodable lines. -/
def scrubLine : Line → Line
  | .malformed _ => .malformed ""
  | l => l

def scrubLines (lines : List Line) : List Line := lines.map scrubLine

/-! ### Concrete run data -/

def sessionInfo0 : SessionInfo := ⟨"p.jsonl", "proj", "sid"⟩

/-- A plain short user record with no timestamp: carries no boundary
signal whatsoever. -/
def userHiRec : Json :=
  .obj [("type", .str "user"), ("message", .obj [("content", .str "hi")])]

/-- The index persisted by a first run over a single-record log: empty
segment list, cursor 1, and the active-segment *header* (no messages). -/
def oneRecIndex : Index :=
  { version := 1, session_id := some "sid", project := some "proj",
    jsonl_file := some "p.jsonl", last_indexed_line := 1, segments := [],
    active_segment := some ⟨"seg-000", 0, 1, none⟩,
    total_segments := some 0, last_updated := none }

def pad2 (n : Nat) : String := if n < 10 then "0" ++ toString n else toString n

/-- Timestamps for the C3 scenario: 10 s apart from 09:00:00, with the
last record at 09:04:30; all gaps are far below 5 minutes. -/
def c3Ts (j : Nat) : String :=
  if j = 23 then "2025-01-01T09:04:30"
  else "2025-01-01T09:0" ++ toString ((10 * j) / 60) ++ ":" ++ pad2 ((10 * j) % 60)

/-- A `TodoWrite` invocation marking one task item completed. -/
def todoCompletedItem : Json :=
  .obj [("type", .str "tool_use"), ("name", .str "TodoWrite"),
        ("input", .obj [("todos",
          .arr [.obj [("status", .str "completed"), ("content", .str "t")]])])]

/-- The C3 scenario log: 12 record pairs (24 records), even indices
outbound/assistant, odd indices inbound/user with text well under 50
characters; record 16 is the outbound `TodoWrite` invocation marking a
task completed; no other boundary signal occurs. -/
def c3Rec (j : Nat) : Json :=
  if j = 16 then
    .obj [("type", .str "assistant"), ("timestamp", .str (c3Ts j)),
          ("message", .obj [("content", .arr [todoCompletedItem])])]
  else if j % 2 = 0 then
    .obj [("type", .str "assistant"), ("timestamp", .str (c3Ts j)),
          ("message", .obj [("content",
            .arr [.obj [("type", .str "text"), ("text", .str "ok")]])])]
  else
    .obj [("type", .str "user"), ("timestamp", .str (c3Ts j)),
          ("message", .obj [("content", .str "hi")])]

def c3Log : List Line := (List.range 24).map fun j => Line.record (c3Rec j)

/-- The index a single C3 run actually produces. -/
def c3Index : Index :=
  { version := 1, session_id := some "sid", project := some "proj",
    jsonl_file := some "p.jsonl", last_indexed_line := 24,
    segments := [{ segment_id := "seg-000", start_line := 0, end_line := 15,
                   line_count := 16, boundary_type := some "task_completed",
                   timestamp := .str "2025-01-01T09:00:00",
                   topics := [], files_touched := [], tools_used := [],
                   decisions := [], summary := "General discussion" }],
    active_segment := some ⟨"seg-001", 16, 8, none⟩,
    total_segments := some 1, last_updated := none }

def c4Log100 : List Line := List.replicate 100 (Line.record userHiRec)

def c4Log101 : List Line := List.replicate 101 (Line.record userHiRec)

/-- The index a run over 101 signal-free records produces: the hard cap
fires while processing record 100, sealing records 0–99. -/
def c4Index : Index :=
  { version := 1, session_id := some "sid", project := some "proj",
    jsonl_file := some "p.jsonl", last_indexed_line := 101,
    segments := [{ segment_id := "seg-000", start_line := 0, end_line := 99,
                   line_count := 100, boundary_type := some "max_lines",
                   timestamp := .str "2025-06-01T00:00:00",
                   topics := [], files_touched := [], tools_used := [],
                   decisions := [], summary := "General discussion" }],
    active_segment := some ⟨"seg-001", 100, 1, none⟩,
    total_segments := some 1, last_updated := none }

/-- A short user record with a fixed timestamp (for the C5 scenario). -/
def c5UserRec : Json :=
  .obj [("type", .str "user"), ("timestamp", .str "2025-01-01T09:00:00"),
        ("message", .obj [("content", .str "hi")])]

/-- An outbound `TodoWrite`-completed record with the same timestamp. -/
def c5TodoRec : Json :=
  .obj [("type", .str "assistant"), ("timestamp", .str "2025-01-01T09:00:00"),
        ("message", .obj [("content", .arr [todoCompletedItem])])]

/-- 21 records sealing two 10-line segments (task completions at records
10 and 20). -/
def c5Log : List Line :=
  (List.range 21).map fun j =>
    Line.record (if j = 10 ∨ j = 20 then c5TodoRec else c5UserRec)

/-- Value of `datetime.now()` for the C5 selection run: the instant the records
carry, so recency is exactly 50 for both segments. -/
def c5Now : Int :=
  match isoParse "2025-01-01T09:00:00" with
  | some dt => dt.secs
  | none => 0

/-- The two sealed segments the indexer produces from `c5Log`. -/
def c5Segs : List Segment :=
  [{ segment_id := "seg-000", start_line := 0, end_line := 9, line_count := 10,
     boundary_type := some "task_completed", timestamp := .str "2025-01-01T09:00:00",
     topics := [], files_touched := [], tools_used := [], decisions := [],
     summary := "General discussion" },
   { segment_id := "seg-001", start_line := 10, end_line := 19, line_count := 10,
     boundary_type := some "task_completed", timestamp := .str "2025-01-01T09:00:00",
     topics := [], files_touched := [], tools_used := [("TodoWrite", 1)], decisions := [],
     summary := "Tools: TodoWrite" }]

/-- A minimal sealed segment used by witnesses. -/
def wSeg : Segment :=
  { segment_id := "seg-000", start_line := 0, end_line := 9, line_count := 10,
    boundary_type := some "task_completed", timestamp := .str "2025-01-01T09:00:00",
    topics := [], files_touched := [], tools_used := [], decisions := [],
    summary := "General discussion" }

/-- C6: below `MIN_SEGMENT_LINES` no record pair can produce a boundary. -/
theorem c6_min_floor (current : Json) (prev : Option Json) (lineCount : Nat)
    (h : lineCount < 10) :
    is_segment_boundary current prev lineCount = .ok (false, none) := by
  unfold is_segment_boundary
  rw [if_neg (by unfold MAX_SEGMENT_LINES; omega), if_pos (by unfold MIN_SEGMENT_LINES; omega)]

/-- Witness for C6 at a concrete record pair carrying every boundary signal
at once (huge time gap, completed todo, long new-topic text). -/
theorem c6_min_floor_witness :
    (9 : Nat) < 10 ∧
      is_segment_boundary
        (.obj [("type", .str "assistant"), ("timestamp", .str "2025-01-01T10:00:00"),
               ("message", .obj [("content", .arr [.obj [("type", .str "tool_use"),
                 ("name", .str "TodoWrite"),
                 ("input", .obj [("todos", .arr [.obj [("status", .str "completed")]])])]])])])
        (some (.obj [("type", .str "assistant"), ("timestamp", .str "2025-01-01T09:00:00")]))
        9 = .ok (false, none) :=
  ⟨by decide, c6_min_floor _ _ 9 (by decide)⟩

/-- C7: when the log has not grown past `last_indexed_line`,
`index_session` returns the existing index unchanged, and saving touches
nothing but the `last_updated` stamp. -/
theorem c7_idempotent (nowIso now2 : String) (info : SessionInfo)
    (lines : List Line) (idx : Index)
    (h : lines.length ≤ idx.last_indexed_line) :
    index_session nowIso info (some lines) idx = .ok idx ∧
    save_segment_index now2 idx = { idx with last_updated := some now2 } := by
  refine ⟨?_, rfl⟩
  simp only [index_session]
  rw [if_pos h]

/-- Witness for C7: re-running on an unchanged (here empty) log. -/
theorem c7_idempotent_witness :
    ([] : List Line).length ≤ emptyIndex.last_indexed_line ∧
      (index_session "t0" sessionInfo0 (some []) emptyIndex = .ok emptyIndex ∧
       save_segment_index "t1" emptyIndex = { emptyIndex with last_updated := some "t1" }) :=
  ⟨by decide, c7_idempotent "t0" "t1" sessionInfo0 [] emptyIndex (by decide)⟩

/-- C1 (code bug): a first run over a one-record log persists only the
active-segment header (`oneRecIndex`, no `messages` key); the resumed run
over the log grown to two records then dereferences the absent
`messages` key and aborts with `KeyError` instead of completing and
indexing the new record. -/
theorem c1_resume_keyerror :
    index_session "2025-06-01T00:00:00" sessionInfo0
        (some [Line.record userHiRec]) emptyIndex = .ok oneRecIndex ∧
      index_session "2025-06-01T00:00:00" sessionInfo0
        (some [Line.record userHiRec, Line.record userHiRec]) oneRecIndex
        = .error "KeyError: messages" :=
  ⟨rfl, rfl⟩

/-- Counterexample to C3 as stated: on the 24-record scenario log the
sealed segment ends at record 15 (the boundary record 16 opens the new
active segment, which therefore covers records 16–23), not at record 16. -/
theorem c3_counterexample :
    (index_session "2025-06-01T00:00:00" sessionInfo0 (some c3Log) emptyIndex).map
        (fun idx =>
          (idx.segments.map fun (s : Segment) => (s.start_line, s.end_line, s.boundary_type),
           idx.active_segment.map fun (a : ActiveSeg) => (a.start_line, a.line_count)))
      = .ok ([(0, 15, some "task_completed")], some (16, 8)) ∧ (15 : Nat) ≠ 16 :=
  ⟨rfl, by decide⟩

/-- C3 amended: the run seals exactly one segment covering records 0–15
with `boundary_type = "task_completed"`, and leaves an active segment
covering records 16–23. -/
theorem c3_amended :
    index_session "2025-06-01T00:00:00" sessionInfo0 (some c3Log) emptyIndex = .ok c3Index :=
  rfl

set_option maxRecDepth 4000 in
/-- Counterexample to C4 as stated: a run over exactly 100 consecutive
signal-free records seals no segment at all (the cap check fires only
when a 101st record is processed); the records stay in the active
segment. -/
theorem c4_counterexample :
    (index_session "2025-06-01T00:00:00" sessionInfo0 (some c4Log100) emptyIndex).map
        (fun idx =>
          (idx.segments,
           idx.active_segment.map fun (a : ActiveSeg) => (a.segment_id, a.start_line, a.line_count)))
      = .ok ([], some ("seg-000", 0, 100)) :=
  rfl

set_option maxRecDepth 4000 in
/-- C4 amended: a run over 101 consecutive signal-free records closes one
sealed segment, covering records 0–99, labelled `"max_lines"`. -/
theorem c4_amended :
    index_session "2025-06-01T00:00:00" sessionInfo0 (some c4Log101) emptyIndex = .ok c4Index :=
  rfl

set_option maxRecDepth 16000 in
/-- Counterexample to C5 as stated: on the two indexer-produced 10-line
segments of `c5Segs` (estimated size 1000 each) and budget 1100, the
selector includes both — the gate compares the estimate against the
running total of *actual* extracted characters (95, then 95+89), so the
sum of the estimated sizes of the selected segments is 2000, exceeding
the budget. -/
theorem c5_counterexample :
    (index_session "2025-06-01T00:00:00" sessionInfo0 (some c5Log) emptyIndex).map
        Index.segments = .ok c5Segs ∧
      (select_best_segments c5Segs [] c5Log 1100 c5Now).map
          (fun sel => sel.map fun x => (x.segment_id, x.content.length))
        = .ok [("seg-001", 95), ("seg-000", 89)] ∧
      (c5Segs.map fun s => s.line_count * 100).sum = 2000 ∧ 1100 < 2000 :=
  ⟨rfl, rfl, rfl, by decide⟩

/-- Keys other than the edit/write class survive the removal of the
edit/write entries. -/
lemma any_key_filter_keep (T : List (String × Nat)) (key : String)
    (hkey : ¬ (key = "Edit" ∨ key = "Write")) :
    ((T.filter fun p => ¬ (p.1 = "Edit" ∨ p.1 = "Write")).any fun p => p.1 = key)
      = (T.any fun p => p.1 = key) := by
  induction T with
  | nil => rfl
  | cons p T ih =>
      rw [List.filter_cons, List.any_cons]
      by_cases h : p.1 = "Edit" ∨ p.1 = "Write"
      · have hc : ¬ ((decide ¬ (p.1 = "Edit" ∨ p.1 = "Write")) = true) :=
          fun hd => of_decide_eq_true hd h
        have hne : decide (p.1 = key) = false :=
          decide_eq_false fun hk => hkey (hk ▸ h)
        rw [if_neg hc, ih, hne, Bool.false_or]
      · have hc : (decide ¬ (p.1 = "Edit" ∨ p.1 = "Write")) = true := decide_eq_true h
        rw [if_pos hc, List.any_cons, ih]

/-- No edit/write key survives the removal of the edit/write entries. -/
lemma any_key_filter_drop (T : List (String × Nat)) (key : String)
    (hkey : key = "Edit" ∨ key = "Write") :
    ((T.filter fun p => ¬ (p.1 = "Edit" ∨ p.1 = "Write")).any fun p => p.1 = key)
      = false := by
  induction T with
  | nil => rfl
  | cons p T ih =>
      rw [List.filter_cons]
      by_cases h : p.1 = "Edit" ∨ p.1 = "Write"
      · have hc : ¬ ((decide ¬ (p.1 = "Edit" ∨ p.1 = "Write")) = true) :=
          fun hd => of_decide_eq_true hd h
        rw [if_neg hc, ih]
      · have hc : (decide ¬ (p.1 = "Edit" ∨ p.1 = "Write")) = true := decide_eq_true h
        have hne : decide (p.1 = key) = false :=
          decide_eq_false fun hk => h (hk ▸ hkey)
        rw [if_pos hc, List.any_cons, ih, hne, Bool.false_or]

/-- Two score assemblies agreeing in everything but the edit/write bonus
(15 versus 0) differ in value by exactly 15. -/
lemma scoreCombine_edit_delta (r : PyFloat) (a b c d : Int) :
    PyFloat.valEq ((scoreCombine r a b 15 c d).sub (scoreCombine r a b 0 c d))
      (.ofInt 15) := by
  simp only [scoreCombine, PyFloat.add, PyFloat.sub, PyFloat.ofInt, PyFloat.valEq]
  push_cast
  ring

/-- C8: with the same pending tasks and the same current time, a segment
whose `tools_used` contains a content-modifying (edit/write-class) tool
scores exactly 15 more than the otherwise identical segment whose
`tools_used` is the same dict with the edit/write entries removed. -/
theorem c8_scoring_delta (s : Segment) (T1 : List (String × Nat))
    (pending : List String) (now : Int)
    (hEW : (T1.any fun p => p.1 = "Edit") = true ∨ (T1.any fun p => p.1 = "Write") = true) :
    PyFloat.valEq
      ((score_segment { s with tools_used := T1 } pending now).sub
        (score_segment
          { s with tools_used := T1.filter fun p => ¬ (p.1 = "Edit" ∨ p.1 = "Write") }
          pending now))
      (.ofInt 15) := by
  have hproj : ∀ X : List (String × Nat),
      ({ s with tools_used := X } : Segment).tools_used = X := fun _ => rfl
  simp only [score_segment, hproj]
  rw [any_key_filter_drop T1 "Edit" (Or.inl rfl),
    any_key_filter_drop T1 "Write" (Or.inr rfl),
    any_key_filter_keep T1 "TodoWrite" (by decide),
    if_pos hEW, if_neg (show ¬ ((false = true) ∨ (false = true)) by simp)]
  exact scoreCombine_edit_delta _ _ _ _ _

/-- Witness for C8 at a concrete segment pair. -/
theorem c8_scoring_delta_witness :
    ((([("Edit", 1)] : List (String × Nat)).any fun p => p.1 = "Edit") = true ∨
        (([("Edit", 1)] : List (String × Nat)).any fun p => p.1 = "Write") = true) ∧
      PyFloat.valEq
        ((score_segment { wSeg with tools_used := [("Edit", 1)] } [] 0).sub
          (score_segment
            { wSeg with tools_used := ([("Edit", 1)] : List (String × Nat)).filter (fun p => ¬ (p.1 = "Edit" ∨ p.1 = "Write")) }
            [] 0))
        (.ofInt 15) :=
  ⟨Or.inl (by decide), c8_scoring_delta wSeg [("Edit", 1)] [] 0 (Or.inl (by decide))⟩

lemma chainFrom_append (segs : List Segment) (lo mid : Nat) (s : Segment)
    (h : chainFrom lo segs mid) (hs : s.start_line = mid) (hle : mid ≤ s.end_line) :
    chainFrom lo (segs ++ [s]) (s.end_line + 1) := by
  induction segs generalizing lo with
  | nil =>
      simp only [chainFrom] at h
      exact ⟨by rw [hs, h], by rw [h]; exact hle, rfl⟩
  | cons t rest ih =>
      obtain ⟨h1, h2, h3⟩ := h
      exact ⟨h1, h2, ih _ h3⟩

/-- Loop invariant of `indexLoop`: if the sealed segments tile
`[0, active.start_line)` on entry, they still do on exit, and the final
active segment starts no later than the end of the input.  A segment is
sealed only when the buffer is non-empty, which forces
`start_line < i` and hence a non-empty sealed range `[start_line, i-1]`. -/
lemma indexLoop_chain (nowIso : String) :
    ∀ (rest : List Line) (i : Nat) (prev : Option Json) (segs : List Segment)
      (act : ActiveSeg) (segsF : List Segment) (actF : ActiveSeg),
      indexLoop nowIso rest i prev segs act = .ok (segsF, actF) →
      chainFrom 0 segs act.start_line →
      act.start_line ≤ i →
      (∀ ms, act.messages = some ms → ms ≠ [] → act.start_line < i) →
      chainFrom 0 segsF actF.start_line ∧ actF.start_line ≤ i + rest.length := by
  intro rest
  induction rest with
  | nil =>
      intro i prev segs act segsF actF hok hchain hle _
      simp only [indexLoop] at hok
      rw [Except.ok.injEq, Prod.mk.injEq] at hok
      obtain ⟨rfl, rfl⟩ := hok
      exact ⟨hchain, by simpa using hle⟩
  | cons l rest ih =>
      intro i prev segs act segsF actF hok hchain hle hstrict
      have hnext : ∀ ms, act.messages = some ms → ms ≠ [] → act.start_line < i + 1 :=
        fun ms h1 h2 => Nat.lt_succ_of_lt (hstrict ms h1 h2)
      have hbound : ∀ r : Nat, r ≤ (i + 1) + rest.length → r ≤ i + (l :: rest).length := by
        intro r h
        simp only [List.length_cons]
        omega
      cases l with
      | blank =>
          simp only [indexLoop] at hok
          obtain ⟨hc, hb⟩ := ih (i + 1) prev segs act segsF actF hok hchain
            (Nat.le_succ_of_le hle) hnext
          exact ⟨hc, hbound _ hb⟩
      | malformed raw =>
          simp only [indexLoop] at hok
          obtain ⟨hc, hb⟩ := ih (i + 1) prev segs act segsF actF hok hchain
            (Nat.le_succ_of_le hle) hnext
          exact ⟨hc, hbound _ hb⟩
      | record msg =>
          simp only [indexLoop] at hok
          split at hok
          · exact absurd hok (by simp)
          · split at hok
            · obtain ⟨hc, hb⟩ := ih (i + 1) prev segs act segsF actF hok hchain
                (Nat.le_succ_of_le hle) hnext
              exact ⟨hc, hbound _ hb⟩
            · split at hok
              · exact absurd hok (by simp)
              · split at hok
                · -- boundary fired
                  split at hok
                  · exact absurd hok (by simp)
                  · -- messages present but empty: no seal, plain append
                    obtain ⟨hc, hb⟩ := ih (i + 1) (some msg) segs _ segsF actF hok
                      hchain (Nat.le_succ_of_le hle)
                      (fun ms2 h1 h2 => Nat.lt_succ_of_le hle)
                    exact ⟨hc, hbound _ hb⟩
                  · -- seal the active segment, then recurse
                    split at hok
                    · exact absurd hok (by simp)
                    · split at hok
                      · exact absurd hok (by simp)
                      · have hlt : act.start_line < i := hstrict _ (by assumption) (by simp)
                        obtain ⟨hc, hb⟩ := ih (i + 1) (some msg) _ _ segsF actF hok
                          (by
                            show chainFrom 0 _ i
                            rw [show i = i - 1 + 1 by omega]
                            exact chainFrom_append segs 0 act.start_line _ hchain rfl
                              (show act.start_line ≤ i - 1 by omega))
                          (Nat.le_succ i)
                          (fun ms2 h1 h2 => Nat.lt_succ_self i)
                        exact ⟨hc, hbound _ hb⟩
                · -- no boundary: plain append
                  split at hok
                  · exact absurd hok (by simp)
                  · obtain ⟨hc, hb⟩ := ih (i + 1) (some msg) segs _ segsF actF hok
                      hchain (Nat.le_succ_of_le hle)
                      (fun ms2 h1 h2 => Nat.lt_succ_of_le hle)
                    exact ⟨hc, hbound _ hb⟩

/-- C2: after a run over a non-empty log starting from the empty index,
the sealed segments consecutively tile `[0, active.start_line)` starting
at line 0 (each next `start_line` is the previous `end_line + 1`), the
header of the active segment follows the last sealed segment, and the cursor
equals the log length, so sealed ranges plus the active range
`[start_line, last_indexed_line)` exactly partition
`[0, last_indexed_line)`. -/
theorem c2_partition (nowIso : String) (info : SessionInfo) (lines : List Line) (idx : Index)
    (hne : lines ≠ [])
    (hok : index_session nowIso info (some lines) emptyIndex = .ok idx) :
    idx.last_indexed_line = lines.length ∧
      ∃ a, idx.active_segment = some a ∧ chainFrom 0 idx.segments a.start_line ∧
        a.start_line ≤ lines.length := by
  have hpos : 0 < lines.length := List.length_pos.mpr hne
  simp only [index_session, emptyIndex] at hok
  rw [if_neg (by omega)] at hok
  split at hok
  · exact absurd hok (by simp)
  · rename_i segs actF heq
    rw [Except.ok.injEq] at hok
    subst hok
    have hinit := indexLoop_chain nowIso (lines.drop 0) 0 none []
      ⟨formatSegId (List.length []), 0, 0, some []⟩ segs actF heq rfl (Nat.le_refl 0)
      (fun ms h1 h2 => by
        simp only at h1
        rw [Option.some.injEq] at h1
        exact absurd h1.symm h2)
    refine ⟨rfl, ⟨_, rfl, hinit.1, ?_⟩⟩
    have := hinit.2
    simpa using this

/-- Witness for C2 over a one-record log. -/
theorem c2_partition_witness :
    ([Line.record userHiRec] ≠ ([] : List Line)) ∧
      index_session "t0" sessionInfo0 (some [Line.record userHiRec]) emptyIndex
        = .ok oneRecIndex ∧
      (oneRecIndex.last_indexed_line = [Line.record userHiRec].length ∧
        ∃ a, oneRecIndex.active_segment = some a ∧
          chainFrom 0 oneRecIndex.segments a.start_line ∧
          a.start_line ≤ [Line.record userHiRec].length) :=
  ⟨by simp, rfl,
    c2_partition "t0" sessionInfo0 [Line.record userHiRec] oneRecIndex (by simp) rfl⟩

lemma create_segment_summary_caps (msgs : List Json) (sd : SegData)
    (h : create_segment_summary msgs = .ok sd) :
    sd.topics.length ≤ 10 ∧ sd.files_touched.length ≤ 10 ∧
      sd.tools_used.length ≤ 5 ∧ sd.decisions.length ≤ 3 := by
  unfold create_segment_summary at h
  split at h
  · exact absurd h (by simp)
  · rw [Except.ok.injEq] at h
    subst h
    refine ⟨?_, ?_, ?_, ?_⟩ <;> simp [finishSummary, List.length_take]

lemma indexLoop_caps (nowIso : String) :
    ∀ (rest : List Line) (i : Nat) (prev : Option Json) (segs : List Segment)
      (act : ActiveSeg) (segsF : List Segment) (actF : ActiveSeg),
      indexLoop nowIso rest i prev segs act = .ok (segsF, actF) →
      (∀ s ∈ segs, SegCaps s) →
      ∀ s ∈ segsF, SegCaps s := by
  intro rest
  induction rest with
  | nil =>
      intro i prev segs act segsF actF hok hcaps
      simp only [indexLoop] at hok
      rw [Except.ok.injEq, Prod.mk.injEq] at hok
      obtain ⟨rfl, rfl⟩ := hok
      exact hcaps
  | cons l rest ih =>
      intro i prev segs act segsF actF hok hcaps
      cases l with
      | blank =>
          simp only [indexLoop] at hok
          exact ih (i + 1) prev segs act segsF actF hok hcaps
      | malformed raw =>
          simp only [indexLoop] at hok
          exact ih (i + 1) prev segs act segsF actF hok hcaps
      | record msg =>
          simp only [indexLoop] at hok
          split at hok
          · exact absurd hok (by simp)
          · split at hok
            · exact ih (i + 1) prev segs act segsF actF hok hcaps
            · split at hok
              · exact absurd hok (by simp)
              · split at hok
                · split at hok
                  · exact absurd hok (by simp)
                  · exact ih (i + 1) (some msg) segs _ segsF actF hok hcaps
                  · split at hok
                    · exact absurd hok (by simp)
                    · split at hok
                      · exact absurd hok (by simp)
                      · refine ih (i + 1) (some msg) _ _ segsF actF hok ?_
                        intro s hs
                        rcases List.mem_append.mp hs with h | h
                        · exact hcaps s h
                        · obtain ⟨hc1, hc2, hc3, hc4⟩ :=
                            create_segment_summary_caps _ _ (by assumption)
                          rw [List.mem_singleton.mp h]
                          exact ⟨hc1, hc2, hc3, hc4⟩
                · split at hok
                  · exact absurd hok (by simp)
                  · exact ih (i + 1) (some msg) segs _ segsF actF hok hcaps

/-- C10: every sealed segment stored by a run carries at most 10 topics,
10 files, 5 tools and 3 decisions — whatever the records contain, the
summary truncates each list before it is stored. -/
theorem c10_summary_caps (nowIso : String) (info : SessionInfo) (log : Option (List Line))
    (existing idx : Index)
    (hprev : ∀ s ∈ existing.segments, SegCaps s)
    (hok : index_session nowIso info log existing = .ok idx) :
    ∀ s ∈ idx.segments, SegCaps s := by
  cases log with
  | none =>
      simp only [index_session] at hok
      rw [Except.ok.injEq] at hok
      subst hok
      exact hprev
  | some lines =>
      simp only [index_session] at hok
      by_cases hc : existing.last_indexed_line ≥ lines.length
      · rw [if_pos hc] at hok
        rw [Except.ok.injEq] at hok
        subst hok
        exact hprev
      · rw [if_neg hc] at hok
        split at hok
        · exact absurd hok (by simp)
        · rename_i segs actF heq
          rw [Except.ok.injEq] at hok
          subst hok
          exact indexLoop_caps nowIso _ _ _ _ _ segs actF heq hprev

/-- Witness for C10 over a one-record log from the empty index. -/
theorem c10_summary_caps_witness :
    (∀ s ∈ emptyIndex.segments, SegCaps s) ∧
      index_session "t0" sessionInfo0 (some [Line.record userHiRec]) emptyIndex
        = .ok oneRecIndex ∧
      ∀ s ∈ oneRecIndex.segments, SegCaps s :=
  ⟨by simp [emptyIndex], rfl,
    c10_summary_caps "t0" sessionInfo0 (some [Line.record userHiRec]) emptyIndex oneRecIndex
      (by simp [emptyIndex]) rfl⟩

lemma indexLoop_scrub (nowIso : String) :
    ∀ (rest : List Line) (i : Nat) (prev : Option Json) (segs : List Segment) (act : ActiveSeg),
      indexLoop nowIso (scrubLines rest) i prev segs act
        = indexLoop nowIso rest i prev segs act := by
  intro rest
  induction rest with
  | nil => intro i prev segs act; rfl
  | cons l rest ih =>
      intro i prev segs act
      cases l with
      | blank =>
          show indexLoop nowIso (Line.blank :: scrubLines rest) i prev segs act = _
          simp only [indexLoop]
          exact ih _ _ _ _
      | malformed raw =>
          show indexLoop nowIso (Line.malformed "" :: scrubLines rest) i prev segs act = _
          simp only [indexLoop]
          exact ih _ _ _ _
      | record msg =>
          show indexLoop nowIso (Line.record msg :: scrubLines rest) i prev segs act = _
          simp only [indexLoop]
          split
          · rfl
          · split
            · exact ih _ _ _ _
            · split
              · rfl
              · split
                · split
                  · rfl
                  · exact ih _ _ _ _
                  · split
                    · rfl
                    · split
                      · rfl
                      · exact ih _ _ _ _
                · split
                  · rfl
                  · exact ih _ _ _ _

lemma extractLines_scrub :
    ∀ (ls : List Line) (parts : List String),
      extractLines (scrubLines ls) parts = extractLines ls parts := by
  intro ls
  induction ls with
  | nil => intro parts; rfl
  | cons l ls ih =>
      intro parts
      cases l with
      | blank =>
          show extractLines (Line.blank :: scrubLines ls) parts = _
          simp only [extractLines]
          exact ih _
      | malformed raw =>
          show extractLines (Line.malformed "" :: scrubLines ls) parts = _
          simp only [extractLines]
          exact ih _
      | record msg =>
          show extractLines (Line.record msg :: scrubLines ls) parts = _
          simp only [extractLines]
          split
          · rfl
          · split
            · split
              · rfl
              · split
                · rfl
                · split
                  · split
                    · exact ih _
                    · exact ih _
                  · exact ih _
            · split
              · split
                · rfl
                · split
                  · rfl
                  · split
                    · split
                      · rfl
                      · exact ih _
                    · exact ih _
              · exact ih _

/-- C9: neither the indexing pass nor the excerpt extraction depends in
any way on the text of undecodable log lines — erasing the content of every malformed
line changes the outcome of neither function (including whether it
succeeds), so a malformed line is skipped: it never aborts a run
differently, never enters a segment and never appears in an excerpt. -/
theorem c9_malformed_skipped (nowIso : String) (info : SessionInfo) (lines : List Line)
    (existing : Index) (s e : Nat) :
    index_session nowIso info (some (scrubLines lines)) existing
        = index_session nowIso info (some lines) existing ∧
      extract_segment_content (scrubLines lines) s e
        = extract_segment_content lines s e := by
  constructor
  · simp only [index_session, scrubLines, List.length_map]
    by_cases hc : existing.last_indexed_line ≥ lines.length
    · rw [if_pos hc, if_pos hc]
    · rw [if_neg hc, if_neg hc, ← List.map_drop,
        show List.map scrubLine (lines.drop existing.last_indexed_line)
          = scrubLines (lines.drop existing.last_indexed_line) from rfl,
        indexLoop_scrub]
  · simp only [extract_segment_content, scrubLines, List.length_map, ← List.map_take,
      ← List.map_drop]
    rw [show List.map scrubLine ((lines.take (min (e + 1) lines.length)).drop s)
        = scrubLines ((lines.take (min (e + 1) lines.length)).drop s) from rfl,
      extractLines_scrub]

lemma mem_insScoredDesc (x y : PyFloat × Segment) (l : List (PyFloat × Segment))
    (h : y ∈ insScoredDesc x l) : y = x ∨ y ∈ l := by
  induction l with
  | nil => simp [insScoredDesc] at h; exact Or.inl h
  | cons z zs ih =>
      simp only [insScoredDesc] at h
      split at h
      · rcases List.mem_cons.mp h with h | h
        · exact Or.inr (List.mem_cons_self z zs |> (h ▸ ·))
        · rcases ih h with h | h
          · exact Or.inl h
          · exact Or.inr (List.mem_cons_of_mem _ h)
      · rcases List.mem_cons.mp h with h | h
        · exact Or.inl h
        · exact Or.inr h

lemma mem_sortScoredDesc (y : PyFloat × Segment) (l : List (PyFloat × Segment))
    (h : y ∈ sortScoredDesc l) : y ∈ l := by
  induction l with
  | nil => exact h
  | cons z zs ih =>
      simp only [sortScoredDesc] at h
      rcases mem_insScoredDesc z y _ h with h | h
      · exact h ▸ List.mem_cons_self z zs
      · exact List.mem_cons_of_mem _ (ih h)

lemma selectGo_zero (lines : List Line) :
    ∀ (scored : List (PyFloat × Segment)) (total : Nat) (acc : List SelectedSeg),
      (∀ p ∈ scored, 1 ≤ p.2.line_count) →
      selectGo lines 0 scored total acc = .ok acc := by
  intro scored
  induction scored with
  | nil => intro total acc _; rfl
  | cons p rest ih =>
      intro total acc hlc
      obtain ⟨sc, seg⟩ := p
      have h1 : 1 ≤ seg.line_count := hlc (sc, seg) (List.mem_cons_self _ _)
      have h100 : 100 ≤ seg.line_count * 100 := by
        calc 100 = 1 * 100 := by omega
        _ ≤ seg.line_count * 100 := Nat.mul_le_mul_right 100 h1
      simp only [selectGo]
      rw [if_pos (by omega)]
      exact ih total acc fun q hq => hlc q (List.mem_cons_of_mem _ hq)

lemma selectGo_gated (lines : List Line) (budget : Nat) (f : String → Nat) :
    ∀ (scored : List (PyFloat × Segment)) (total : Nat) (acc sel : List SelectedSeg),
      selectGo lines budget scored total acc = .ok sel →
      (∀ p ∈ scored, f p.2.segment_id = p.2.line_count) →
      ∃ tail, sel = acc ++ tail ∧ Gated budget f total tail := by
  intro scored
  induction scored with
  | nil =>
      intro total acc sel hok _
      simp only [selectGo] at hok
      rw [Except.ok.injEq] at hok
      exact ⟨[], by simp [← hok], trivial⟩
  | cons p rest ih =>
      intro total acc sel hok hf
      obtain ⟨sc, seg⟩ := p
      have hfr : ∀ q ∈ rest, f q.2.segment_id = q.2.line_count :=
        fun q hq => hf q (List.mem_cons_of_mem _ hq)
      have hfs : f seg.segment_id = seg.line_count := hf (sc, seg) (List.mem_cons_self _ _)
      simp only [selectGo] at hok
      split at hok
      · exact ih total acc sel hok hfr
      · rename_i hgate
        split at hok
        · exact absurd hok (by simp)
        · rename_i content hext
          by_cases hinc : content ≠ ""
          · rw [if_pos hinc, if_pos hinc] at hok
            split at hok
            · rw [Except.ok.injEq] at hok
              refine ⟨[⟨seg.segment_id, sc, seg.topics, seg.summary, content⟩],
                by simp [← hok], ?_, trivial⟩
              show total + 100 * f seg.segment_id ≤ budget
              rw [hfs]
              omega
            · obtain ⟨tail2, hsel, hg⟩ := ih _ _ sel hok hfr
              refine ⟨⟨seg.segment_id, sc, seg.topics, seg.summary, content⟩ :: tail2,
                by simpa [List.append_assoc] using hsel, ?_, ?_⟩
              · show total + 100 * f seg.segment_id ≤ budget
                rw [hfs]
                omega
              · simpa using hg
          · rw [if_neg hinc, if_neg hinc] at hok
            split at hok
            · rw [Except.ok.injEq] at hok
              exact ⟨[], by simp [← hok], trivial⟩
            · exact ih total acc sel hok hfr

/-- C5 amended: with budget 0 (and indexer-produced segments, which all
have at least one line) the selection is empty; and in general each
segment is selected only when its estimated size (100 x line count,
recovered from its id through `f`) fits in the budget together with the
actual lengths of the previously extracted contents (`Gated`) — the sum
of the estimates themselves may exceed the budget (see the
counterexample). -/
theorem c5_amended :
    (∀ (segs : List Segment) (todos : List String) (lines : List Line) (now : Int),
        (∀ s ∈ segs, 1 ≤ s.line_count) →
        select_best_segments segs todos lines 0 now = .ok []) ∧
      (∀ (segs : List Segment) (todos : List String) (lines : List Line)
          (budget : Nat) (now : Int) (sel : List SelectedSeg) (f : String → Nat),
        (∀ s ∈ segs, f s.segment_id = s.line_count) →
        select_best_segments segs todos lines budget now = .ok sel →
        Gated budget f 0 sel) := by
  constructor
  · intro segs todos lines now h
    unfold select_best_segments
    split
    · rfl
    · refine selectGo_zero lines _ 0 [] ?_
      intro p hp
      obtain ⟨s0, hs0, rfl⟩ := List.mem_map.mp (mem_sortScoredDesc p _ hp)
      exact h s0 hs0
  · intro segs todos lines budget now sel f hf hok
    unfold select_best_segments at hok
    split at hok
    · rw [Except.ok.injEq] at hok
      subst hok
      trivial
    · have hmem : ∀ p ∈ sortScoredDesc (segs.map fun seg => (score_segment seg todos now, seg)),
          f p.2.segment_id = p.2.line_count := by
        intro p hp
        obtain ⟨s0, hs0, rfl⟩ := List.mem_map.mp (mem_sortScoredDesc p _ hp)
        exact hf s0 hs0
      obtain ⟨tail, htail, hg⟩ := selectGo_gated lines budget f _ 0 [] sel hok hmem
      rw [htail, List.nil_append]
      exact hg

/-- Witness for C5 amended at a one-segment list and budget 0. -/
theorem c5_amended_witness :
    (∀ s ∈ [wSeg], 1 ≤ s.line_count) ∧
      select_best_segments [wSeg] [] [] 0 0 = .ok [] ∧
      Gated 0 (fun _ => 10) 0 [] :=
  ⟨by intro s hs; rw [List.mem_singleton.mp hs]; decide,
    c5_amended.1 [wSeg] [] [] 0 (by intro s hs; rw [List.mem_singleton.mp hs]; decide),
    c5_amended.2 [wSeg] [] [] 0 0 [] (fun _ => 10)
      (by intro s hs; rw [List.mem_singleton.mp hs]; decide)
      (c5_amended.1 [wSeg] [] [] 0 (by intro s hs; rw [List.mem_singleton.mp hs]; decide))⟩
